import Mathlib

/-!
Shallow embedding of the leaky-bucket rate limiter
(src/rate_limiter/algorithms/leaky_bucket.py and the value types in
src/rate_limiter/core/{request,response}.py), together with theorems
settling the specification claims about construction, admission,
draining, lifecycle control, metrics and status reporting.

Modelling conventions:
- Python floats (timestamps, leak rate, processing interval) are modelled
  as rationals.
- Python `int(x)` (truncation toward zero) is `pyInt`.
- A `collections.deque(maxlen=m)` append that evicts from the left when
  full is `dequeAppend m`.
- Fallible Python operations (the constructor, which can raise
  ZeroDivisionError or ValueError, and `get_status`, whose utilization
  division can raise ZeroDivisionError) return `Except PyError _`.
- The asyncio lock serializes admission, drain and status operations, so
  each is modelled as an atomic transition on the engine state; the
  current wall-clock time is passed explicitly.
- The asyncio task lifecycle used by `start`/`stop` is modelled by an
  explicit `TaskState` recording the ids of running drain tasks.
-/

/-- Python `int(x)`: truncation toward zero. -/
def pyInt (q : ℚ) : ℤ :=
  if 0 ≤ q then ⌊q⌋ else ⌈q⌉

/-- Append on a `collections.deque(maxlen=m)`: after the append only the
last `m` elements are kept (the oldest are evicted from the left). -/
def dequeAppend (m : ℕ) (l : List α) (a : α) : List α :=
  let l2 := l ++ [a]
  l2.drop (l2.length - m)

/-- The `RateLimitRequest` dataclass from src/rate_limiter/core/request.py
(the optional metadata mapping is opaque to the engine and omitted). -/
structure RateLimitRequest where
  id : String
  timestamp : ℚ
  client_ip : String
  path : String
  method : String
deriving DecidableEq

/-- The `RateLimitResponse` class from src/rate_limiter/core/response.py. -/
structure RateLimitResponse where
  is_allowed : Bool
  headers : List (String × String)
  retry_after : Option ℤ := none
deriving DecidableEq

/-- Errors the Python code can raise: `ZeroDivisionError` (from `1.0 /
leak_rate` with a zero rate, or `current_size / self.bucket_size` with a
zero bucket size) and `ValueError` (from `deque(maxlen=bucket_size)` with
a negative bucket size). -/
inductive PyError where
  | zeroDivisionError
  | valueError
deriving DecidableEq

/-- The mutable state of `LeakyBucketAlgorithm`. `leak_task` holds the id
of the running drain task, if any. -/
structure LeakyBucketAlgorithm where
  bucket_size : ℤ
  leak_rate : ℚ
  processing_interval : ℚ
  bucket : List RateLimitRequest
  total_requests : ℕ
  accepted_requests : ℕ
  rejected_requests : ℕ
  last_leak_time : ℚ
  processing_times : List ℚ
  leak_task : Option ℕ
deriving DecidableEq

namespace LeakyBucketAlgorithm

/-- `LeakyBucketAlgorithm.__init__`. The body performs no validation:
`self.processing_interval = 1.0 / leak_rate` raises ZeroDivisionError when
`leak_rate == 0`, and `deque(maxlen=bucket_size)` raises ValueError when
`bucket_size < 0`; every other input constructs successfully. `now` is the
value of `time()` stored in `last_leak_time`. -/
def init (bucket_size : ℤ) (leak_rate : ℚ) (now : ℚ) :
    Except PyError LeakyBucketAlgorithm :=
  if leak_rate = 0 then .error .zeroDivisionError
  else if bucket_size < 0 then .error .valueError
  else .ok
    { bucket_size := bucket_size
      leak_rate := leak_rate
      processing_interval := 1 / leak_rate
      bucket := []
      total_requests := 0
      accepted_requests := 0
      rejected_requests := 0
      last_leak_time := now
      processing_times := []
      leak_task := none }

/-- `LeakyBucketAlgorithm.allow_request`. `current_time` is the `time()`
value read before entering the lock. Returns the post-state and the
response. -/
def allow_request (s : LeakyBucketAlgorithm) (current_time : ℚ)
    (request : RateLimitRequest) :
    LeakyBucketAlgorithm × RateLimitResponse :=
  let s1 := { s with total_requests := s.total_requests + 1 }
  let current_size := s1.bucket.length
  if (current_size : ℤ) < s1.bucket_size then
    let s2 := { s1 with
      bucket := dequeAppend s1.bucket_size.toNat s1.bucket request
      accepted_requests := s1.accepted_requests + 1 }
    let headers := [
      ("X-RateLimit-Limit", toString s1.bucket_size),
      ("X-RateLimit-Remaining", toString (s1.bucket_size - (current_size : ℤ) - 1)),
      ("X-RateLimit-Reset",
        toString (pyInt (current_time + ((current_size : ℚ) + 1) * s1.processing_interval)))]
    (s2, { is_allowed := true, headers := headers, retry_after := none })
  else
    let s2 := { s1 with rejected_requests := s1.rejected_requests + 1 }
    let retry_after := pyInt ((current_size : ℚ) * s1.processing_interval)
    let headers := [
      ("X-RateLimit-Limit", toString s1.bucket_size),
      ("X-RateLimit-Remaining", "0"),
      ("X-RateLimit-Reset", toString (pyInt (current_time + (retry_after : ℚ)))),
      ("Retry-After", toString retry_after)]
    (s2, { is_allowed := false, headers := headers, retry_after := some retry_after })

/-- One cycle of `LeakyBucketAlgorithm._leak_bucket` after the sleep: under
the lock, if the bucket is non-empty, pop the head, record `now` minus its
arrival timestamp into the latency window (a deque with maxlen 1000). -/
def leak_bucket (s : LeakyBucketAlgorithm) (now : ℚ) : LeakyBucketAlgorithm :=
  match s.bucket with
  | [] => s
  | request :: rest =>
      { s with
        bucket := rest
        processing_times := dequeAppend 1000 s.processing_times (now - request.timestamp) }

/-- The snapshot returned by `LeakyBucketAlgorithm.get_status`, with the
nested config / current_state / metrics dictionaries flattened. -/
structure StatusReport where
  bucket_size : ℤ
  leak_rate : ℚ
  processing_interval : ℚ
  current_size : ℕ
  utilization : ℚ
  total_requests : ℕ
  accepted_requests : ℕ
  rejected_requests : ℕ
  acceptance_rate : ℚ
  avg_processing_time : ℚ
deriving DecidableEq

/-- `LeakyBucketAlgorithm.get_status`. The utilization division
`current_size / self.bucket_size` raises ZeroDivisionError when
`bucket_size == 0`; the acceptance-rate and average divisions are guarded
in the source. -/
def get_status (s : LeakyBucketAlgorithm) : Except PyError StatusReport :=
  if s.bucket_size = 0 then .error .zeroDivisionError
  else
    let current_size := s.bucket.length
    let avg_processing_time :=
      if s.processing_times = [] then 0
      else s.processing_times.sum / (s.processing_times.length : ℚ)
    .ok
      { bucket_size := s.bucket_size
        leak_rate := s.leak_rate
        processing_interval := s.processing_interval
        current_size := current_size
        utilization := (current_size : ℚ) / (s.bucket_size : ℚ)
        total_requests := s.total_requests
        accepted_requests := s.accepted_requests
        rejected_requests := s.rejected_requests
        acceptance_rate :=
          if 0 < s.total_requests then
            (s.accepted_requests : ℚ) / (s.total_requests : ℚ)
          else 0
        avg_processing_time := avg_processing_time }

/-- State of the cooperative scheduler: ids of currently running drain
tasks and a fresh id supply. Models the asyncio tasks spawned by
`asyncio.create_task(self._leak_bucket())`. -/
structure TaskState where
  running : List ℕ
  fresh : ℕ
deriving DecidableEq

/-- `LeakyBucketAlgorithm.start`: if `self.leak_task is None`, create a
drain task and remember its handle; otherwise do nothing. -/
def start (e : LeakyBucketAlgorithm) (ts : TaskState) :
    LeakyBucketAlgorithm × TaskState :=
  match e.leak_task with
  | none =>
      ({ e with leak_task := some ts.fresh },
       { running := ts.running ++ [ts.fresh], fresh := ts.fresh + 1 })
  | some _ => (e, ts)

/-- `LeakyBucketAlgorithm.stop`: if a task handle is held, cancel it, await
its termination (the CancelledError is swallowed) and clear the handle;
otherwise do nothing. -/
def stop (e : LeakyBucketAlgorithm) (ts : TaskState) :
    LeakyBucketAlgorithm × TaskState :=
  match e.leak_task with
  | some t => ({ e with leak_task := none },
               { running := ts.running.erase t, fresh := ts.fresh })
  | none => (e, ts)

/-- Task-lifecycle invariant: the set of running drain tasks is exactly
what the engine's `leak_task` handle says it is. Holds initially (no task,
nothing running) and is preserved by `start` and `stop`. -/
def TaskInv (e : LeakyBucketAlgorithm) (ts : TaskState) : Prop :=
  match e.leak_task with
  | none => ts.running = []
  | some t => ts.running = [t]

/-- Reachable-state invariant on the bucket: a non-negative capacity and a
queue never longer than it. -/
def Inv (s : LeakyBucketAlgorithm) : Prop :=
  0 ≤ s.bucket_size ∧ (s.bucket.length : ℤ) ≤ s.bucket_size

/-- Sequential processing of a batch of requests (each `allow_request` call
is atomic under the engine's lock, so any concurrent interleaving of
admissions with no intervening drain linearizes to such a sequence). -/
def processAll (s : LeakyBucketAlgorithm) (now : ℚ) :
    List RateLimitRequest → LeakyBucketAlgorithm × List RateLimitResponse
  | [] => (s, [])
  | r :: rs =>
      let step := allow_request s now r
      let rest := processAll step.1 now rs
      (rest.1, step.2 :: rest.2)

end LeakyBucketAlgorithm

/-! ## Helper lemmas -/

theorem dequeAppend_of_lt {m : ℕ} {l : List α} (a : α) (h : l.length < m) :
    dequeAppend m l a = l ++ [a] := by
  unfold dequeAppend
  simp only [List.length_append, List.length_singleton]
  rw [Nat.sub_eq_zero_of_le (by omega), List.drop_zero]

theorem dequeAppend_of_eq {m : ℕ} {l : List α} (a : α) (h : l.length = m)
    (hm : 0 < m) : dequeAppend m l a = l.tail ++ [a] := by
  unfold dequeAppend
  simp only [List.length_append, List.length_singleton]
  have h1 : l.length + 1 - m = 1 := by omega
  rw [h1, List.drop_append_of_le_length (by omega), List.drop_one]

theorem pyInt_of_nonneg {q : ℚ} (h : 0 ≤ q) : pyInt q = ⌊q⌋ := by
  simp [pyInt, h]

namespace LeakyBucketAlgorithm

theorem allow_request_admit_eq (s : LeakyBucketAlgorithm) (t : ℚ)
    (req : RateLimitRequest) (h : (s.bucket.length : ℤ) < s.bucket_size) :
    allow_request s t req =
      ({ s with
          total_requests := s.total_requests + 1
          bucket := s.bucket ++ [req]
          accepted_requests := s.accepted_requests + 1 },
       { is_allowed := true
         headers := [
          ("X-RateLimit-Limit", toString s.bucket_size),
          ("X-RateLimit-Remaining", toString (s.bucket_size - (s.bucket.length : ℤ) - 1)),
          ("X-RateLimit-Reset",
            toString (pyInt (t + ((s.bucket.length : ℚ) + 1) * s.processing_interval)))]
         retry_after := none }) := by
  have hlen : s.bucket.length < s.bucket_size.toNat := by omega
  simp [allow_request, h, dequeAppend_of_lt _ hlen]

theorem allow_request_reject_eq (s : LeakyBucketAlgorithm) (t : ℚ)
    (req : RateLimitRequest) (h : ¬ (s.bucket.length : ℤ) < s.bucket_size) :
    allow_request s t req =
      ({ s with
          total_requests := s.total_requests + 1
          rejected_requests := s.rejected_requests + 1 },
       { is_allowed := false
         headers := [
          ("X-RateLimit-Limit", toString s.bucket_size),
          ("X-RateLimit-Remaining", "0"),
          ("X-RateLimit-Reset",
            toString (pyInt (t + (pyInt ((s.bucket.length : ℚ) * s.processing_interval) : ℚ)))),
          ("Retry-After", toString (pyInt ((s.bucket.length : ℚ) * s.processing_interval)))]
         retry_after := some (pyInt ((s.bucket.length : ℚ) * s.processing_interval)) }) := by
  simp [allow_request, h]

end LeakyBucketAlgorithm

/-! ## Concrete states used by the witnesses -/

/-- A concrete request. -/
def exReq : RateLimitRequest :=
  { id := "0", timestamp := 3, client_ip := "127.0.0.1", path := "/", method := "GET" }

/-- A concrete engine state: capacity 5, leak rate 1, one queued request,
3 requests seen of which 2 accepted and 1 rejected, one latency sample. -/
def exState : LeakyBucketAlgorithm :=
  { bucket_size := 5, leak_rate := 1, processing_interval := 1
    bucket := [exReq], total_requests := 3, accepted_requests := 2
    rejected_requests := 1, last_leak_time := 0, processing_times := [2]
    leak_task := none }

/-- A concrete full engine state: capacity 1 with one queued request. -/
def exFull : LeakyBucketAlgorithm :=
  { bucket_size := 1, leak_rate := 2, processing_interval := 1 / 2
    bucket := [exReq], total_requests := 1, accepted_requests := 1
    rejected_requests := 0, last_leak_time := 0, processing_times := []
    leak_task := none }

/-! ## C1: constructor validation -/

/-- Claim C1 counterexample: the spec says construction fails for every
non-positive leak rate, but `LeakyBucketAlgorithm.__init__` performs no
validation — constructing with bucket_size 1 and leak_rate -1 succeeds. -/
theorem init_validation_counterexample :
    ¬ (∀ (cap : ℤ) (rate now : ℚ), rate ≤ 0 →
        (LeakyBucketAlgorithm.init cap rate now).isOk = false) := by
  intro h
  exact absurd (h 1 (-1) 0 (by norm_num)) (by decide)

/-- Claim C1 (amended): construction fails at construction time exactly
when leak_rate = 0 (ZeroDivisionError from `1.0 / leak_rate`) or
bucket_size < 0 (ValueError from `deque(maxlen=bucket_size)`); a negative
leak rate or a zero capacity is accepted without error. For every positive
capacity and positive leak rate, construction succeeds and sets
processing_interval = 1 / leak_rate with all counters zero and an empty
bucket. -/
theorem init_failure_modes (cap : ℤ) (rate now : ℚ) :
    ((LeakyBucketAlgorithm.init cap rate now).isOk = true ↔
      ¬ (rate = 0 ∨ cap < 0)) ∧
    (0 < cap → 0 < rate →
      LeakyBucketAlgorithm.init cap rate now = .ok
        { bucket_size := cap, leak_rate := rate, processing_interval := 1 / rate
          bucket := [], total_requests := 0, accepted_requests := 0
          rejected_requests := 0, last_leak_time := now, processing_times := []
          leak_task := none }) := by
  constructor
  · unfold LeakyBucketAlgorithm.init
    split
    · simp_all [Except.isOk, Except.toBool]
    · split <;> simp_all [Except.isOk, Except.toBool]
  · intro hcap hrate
    unfold LeakyBucketAlgorithm.init
    rw [if_neg (by positivity), if_neg (by omega)]

/-- Witness for `init_failure_modes` at capacity 5, leak rate 1. -/
theorem init_failure_modes_witness :
    (0 : ℤ) < 5 ∧ (0 : ℚ) < 1 ∧
    LeakyBucketAlgorithm.init 5 1 0 = .ok
      { bucket_size := 5, leak_rate := 1, processing_interval := 1 / 1
        bucket := [], total_requests := 0, accepted_requests := 0
        rejected_requests := 0, last_leak_time := 0, processing_times := []
        leak_task := none } :=
  ⟨by decide, by decide, (init_failure_modes 5 1 0).2 (by decide) (by decide)⟩

/-! ## C2: admission -/

/-- What an admission must do, for a pre-state `s`, lock-entry time `t`
and request `req`: append to the tail, bump the accepted counter, return
an admitted verdict with the three headers (limit, remaining = capacity -
n - 1, reset = truncation of t + (n + 1) * processingInterval, all decimal
integer strings), and grow the queue by one. -/
def AdmitSpec (s : LeakyBucketAlgorithm) (t : ℚ) (req : RateLimitRequest) : Prop :=
  let r := s.allow_request t req
  r.1.bucket = s.bucket ++ [req] ∧
  r.1.accepted_requests = s.accepted_requests + 1 ∧
  r.2.is_allowed = true ∧
  r.2.headers = [
    ("X-RateLimit-Limit", toString s.bucket_size),
    ("X-RateLimit-Remaining", toString (s.bucket_size - (s.bucket.length : ℤ) - 1)),
    ("X-RateLimit-Reset",
      toString (pyInt (t + ((s.bucket.length : ℚ) + 1) * s.processing_interval)))] ∧
  r.2.retry_after = none ∧
  r.1.bucket.length = s.bucket.length + 1

/-- Claim C2: for every engine state with queue length n strictly below
capacity and every request, `allow_request` admits exactly as `AdmitSpec`
describes. -/
theorem allow_request_admits (s : LeakyBucketAlgorithm) (t : ℚ)
    (req : RateLimitRequest) (h : (s.bucket.length : ℤ) < s.bucket_size) :
    AdmitSpec s t req := by
  simp [AdmitSpec, s.allow_request_admit_eq t req h]

/-- Witness for `allow_request_admits` on the concrete state `exState`
(one queued request, capacity 5). -/
theorem allow_request_admits_witness :
    ((exState.bucket.length : ℤ) < exState.bucket_size) ∧ AdmitSpec exState 10 exReq :=
  ⟨by decide, allow_request_admits exState 10 exReq (by decide)⟩

/-! ## C3: rejection -/

/-- What a rejection must do, for a pre-state `s` with pre-admission queue
length n, lock-entry time `t` and request `req`: leave the bucket
unchanged, bump the rejected counter, and return a rejected verdict
carrying retryAfter = floor(n * processingInterval) both as the
retry_after field and the Retry-After header, with remaining = 0 and
reset = truncation of t + retryAfter. -/
def RejectSpec (s : LeakyBucketAlgorithm) (t : ℚ) (req : RateLimitRequest) : Prop :=
  let r := s.allow_request t req
  let retryAfter := ⌊(s.bucket.length : ℚ) * s.processing_interval⌋
  r.1.bucket = s.bucket ∧
  r.1.rejected_requests = s.rejected_requests + 1 ∧
  r.2.is_allowed = false ∧
  r.2.retry_after = some retryAfter ∧
  r.2.headers = [
    ("X-RateLimit-Limit", toString s.bucket_size),
    ("X-RateLimit-Remaining", "0"),
    ("X-RateLimit-Reset", toString (pyInt (t + (retryAfter : ℚ)))),
    ("Retry-After", toString retryAfter)]

/-- Claim C3: for every engine state whose queue length equals the
capacity (with the non-negative processing interval every constructible
positive-rate configuration has, so that Python's `int` truncation agrees
with the claim's floor), `allow_request` rejects exactly as `RejectSpec`
describes, using the pre-admission queue length. -/
theorem allow_request_rejects (s : LeakyBucketAlgorithm) (t : ℚ)
    (req : RateLimitRequest) (h : (s.bucket.length : ℤ) = s.bucket_size)
    (hpi : 0 ≤ s.processing_interval) : RejectSpec s t req := by
  have hge : ¬ (s.bucket.length : ℤ) < s.bucket_size := by omega
  have hfl : pyInt ((s.bucket.length : ℚ) * s.processing_interval) =
      ⌊(s.bucket.length : ℚ) * s.processing_interval⌋ :=
    pyInt_of_nonneg (mul_nonneg (Nat.cast_nonneg _) hpi)
  simp [RejectSpec, s.allow_request_reject_eq t req hge, hfl]

/-- Witness for `allow_request_rejects` on the concrete full state
`exFull` (capacity 1, one queued request, interval 1/2). -/
theorem allow_request_rejects_witness :
    ((exFull.bucket.length : ℤ) = exFull.bucket_size) ∧
    (0 : ℚ) ≤ exFull.processing_interval ∧ RejectSpec exFull 10 exReq :=
  ⟨by decide, by norm_num [exFull], allow_request_rejects exFull 10 exReq (by decide) (by norm_num [exFull])⟩

/-! ## C4: capacity invariant -/

/-- Claim C4: `size(bucket) <= capacity` is established at construction
and preserved by every operation; admission appends only when strictly
below capacity, a full bucket is left unmodified by a rejection, and a
drain step never increases the length. -/
theorem bucket_capacity_invariant :
    (∀ (cap : ℤ) (rate now : ℚ) (s : LeakyBucketAlgorithm),
       LeakyBucketAlgorithm.init cap rate now = .ok s → s.Inv) ∧
    (∀ (s : LeakyBucketAlgorithm) (t : ℚ) (req : RateLimitRequest),
       s.Inv → (s.allow_request t req).1.Inv) ∧
    (∀ (s : LeakyBucketAlgorithm) (now : ℚ), s.Inv → (s.leak_bucket now).Inv) ∧
    (∀ (s : LeakyBucketAlgorithm) (now : ℚ),
       (s.leak_bucket now).bucket.length ≤ s.bucket.length) ∧
    (∀ (s : LeakyBucketAlgorithm) (t : ℚ) (req : RateLimitRequest),
       ((s.allow_request t req).2.is_allowed = true ↔
         (s.bucket.length : ℤ) < s.bucket_size)) ∧
    (∀ (s : LeakyBucketAlgorithm) (t : ℚ) (req : RateLimitRequest),
       ¬ (s.bucket.length : ℤ) < s.bucket_size →
         (s.allow_request t req).1.bucket = s.bucket) := by
  refine ⟨?_, ?_, ?_, ?_, ?_, ?_⟩
  · intro cap rate now s hinit
    unfold LeakyBucketAlgorithm.init at hinit
    split at hinit
    · cases hinit
    · split at hinit
      · cases hinit
      · cases hinit
        exact ⟨by simp; omega, by simp; omega⟩
  · intro s t req hinv
    obtain ⟨h0, hle⟩ := hinv
    by_cases h : (s.bucket.length : ℤ) < s.bucket_size
    · rw [s.allow_request_admit_eq t req h]
      exact ⟨h0, by simp; omega⟩
    · rw [s.allow_request_reject_eq t req h]
      exact ⟨h0, hle⟩
  · intro s now hinv
    obtain ⟨h0, hle⟩ := hinv
    unfold LeakyBucketAlgorithm.leak_bucket
    split
    · exact ⟨h0, hle⟩
    · refine ⟨h0, ?_⟩
      simp_all
      omega
  · intro s now
    unfold LeakyBucketAlgorithm.leak_bucket
    split
    · exact le_refl _
    · simp_all
  · intro s t req
    by_cases h : (s.bucket.length : ℤ) < s.bucket_size
    · rw [s.allow_request_admit_eq t req h]
      simpa using h
    · rw [s.allow_request_reject_eq t req h]
      simpa using h
  · intro s t req h
    rw [s.allow_request_reject_eq t req h]

/-- Witness for `bucket_capacity_invariant`: the invariant holds on the
concrete state `exState` and is preserved by a concrete admission. -/
theorem bucket_capacity_invariant_witness :
    exState.Inv ∧ (exState.allow_request 10 exReq).1.Inv :=
  ⟨⟨by decide, by decide⟩,
   bucket_capacity_invariant.2.1 exState 10 exReq ⟨by decide, by decide⟩⟩

/-! ## C5: drain semantics -/

/-- What one drain cycle must do at time `now`: with an empty bucket it is
the identity; with a non-empty bucket it removes exactly the head (the
earliest-admitted queued request), appends that request's residency time
to the latency window — evicting the window's oldest sample exactly when
the window holds its fixed capacity of 1000 samples — and changes nothing
else (capacity, counters). -/
def DrainSpec (s : LeakyBucketAlgorithm) (now : ℚ) : Prop :=
  let s2 := s.leak_bucket now
  (s.bucket = [] → s2 = s) ∧
  s2.bucket = s.bucket.tail ∧
  (∀ r rest, s.bucket = r :: rest →
    s2.bucket = rest ∧
    (s.processing_times.length < 1000 →
      s2.processing_times = s.processing_times ++ [now - r.timestamp]) ∧
    (s.processing_times.length = 1000 →
      s2.processing_times = s.processing_times.tail ++ [now - r.timestamp]) ∧
    s2.bucket_size = s.bucket_size ∧
    s2.total_requests = s.total_requests ∧
    s2.accepted_requests = s.accepted_requests ∧
    s2.rejected_requests = s.rejected_requests)

/-- Claim C5: every drain cycle satisfies `DrainSpec`: it removes exactly
one request, the head (FIFO), records its residency time into the bounded
window, and is a no-op on an empty bucket. -/
theorem leak_bucket_drains (s : LeakyBucketAlgorithm) (now : ℚ) :
    DrainSpec s now := by
  unfold DrainSpec LeakyBucketAlgorithm.leak_bucket
  split
  · simp_all
  · rename_i r rest heq
    refine ⟨by simp_all, by simp_all, ?_⟩
    intro r2 rest2 heq2
    rw [heq] at heq2
    cases heq2
    refine ⟨rfl, ?_, ?_, rfl, rfl, rfl, rfl⟩
    · intro hlt
      simp [dequeAppend_of_lt _ hlt]
    · intro hlen
      simp [dequeAppend_of_eq _ hlen (by omega)]

/-- Witness for `leak_bucket_drains` on `exState`, whose bucket holds the
single request `exReq`: the drained bucket is empty and the residency time
of `exReq` is appended to the window. -/
theorem leak_bucket_drains_witness :
    exState.bucket = exReq :: [] ∧
    (exState.leak_bucket 10).bucket = [] ∧
    (exState.leak_bucket 10).processing_times =
      exState.processing_times ++ [10 - exReq.timestamp] :=
  have h := (leak_bucket_drains exState 10).2.2 exReq [] (by decide)
  ⟨by decide, h.1, h.2.1 (by decide)⟩

/-! ## C6: start/stop idempotence -/

/-- A concrete engine state holding a running drain-task handle. -/
def exRunning : LeakyBucketAlgorithm := { exState with leak_task := some 0 }

/-- Scheduler state in which exactly task 0 runs. -/
def exTasks : LeakyBucketAlgorithm.TaskState := { running := [0], fresh := 1 }

/-- Claim C6: `start` and `stop` are idempotent on the task-lifecycle
state: a second `start` is a no-op (no duplicate drain loop is spawned),
`stop` clears the handle and removes the running task so a second `stop`
is a no-op, and from any state satisfying the task invariant, `stop`
leaves no running background task and `start` leaves at most one. -/
theorem start_stop_idempotent :
    (∀ (e : LeakyBucketAlgorithm) (ts : LeakyBucketAlgorithm.TaskState),
       LeakyBucketAlgorithm.start (LeakyBucketAlgorithm.start e ts).1
         (LeakyBucketAlgorithm.start e ts).2 = LeakyBucketAlgorithm.start e ts) ∧
    (∀ (e : LeakyBucketAlgorithm) (ts : LeakyBucketAlgorithm.TaskState),
       LeakyBucketAlgorithm.stop (LeakyBucketAlgorithm.stop e ts).1
         (LeakyBucketAlgorithm.stop e ts).2 = LeakyBucketAlgorithm.stop e ts) ∧
    (∀ (e : LeakyBucketAlgorithm) (ts : LeakyBucketAlgorithm.TaskState) (t : ℕ),
       e.leak_task = some t → LeakyBucketAlgorithm.start e ts = (e, ts)) ∧
    (∀ (e : LeakyBucketAlgorithm) (ts : LeakyBucketAlgorithm.TaskState), e.TaskInv ts →
       (LeakyBucketAlgorithm.stop e ts).1.leak_task = none ∧
       (LeakyBucketAlgorithm.stop e ts).2.running = [] ∧
       (LeakyBucketAlgorithm.start e ts).2.running.length ≤ 1 ∧
       (LeakyBucketAlgorithm.start e ts).1.TaskInv (LeakyBucketAlgorithm.start e ts).2 ∧
       (LeakyBucketAlgorithm.stop e ts).1.TaskInv (LeakyBucketAlgorithm.stop e ts).2) := by
  refine ⟨?_, ?_, ?_, ?_⟩
  · intro e ts
    cases h : e.leak_task <;>
      simp [LeakyBucketAlgorithm.start, h]
  · intro e ts
    cases h : e.leak_task <;>
      simp [LeakyBucketAlgorithm.stop, h]
  · intro e ts t h
    simp [LeakyBucketAlgorithm.start, h]
  · intro e ts hinv
    unfold LeakyBucketAlgorithm.TaskInv at hinv
    cases h : e.leak_task with
    | none =>
      rw [h] at hinv
      simp [LeakyBucketAlgorithm.stop, LeakyBucketAlgorithm.start, h,
        LeakyBucketAlgorithm.TaskInv, hinv]
    | some t =>
      rw [h] at hinv
      simp [LeakyBucketAlgorithm.stop, LeakyBucketAlgorithm.start, h,
        LeakyBucketAlgorithm.TaskInv, hinv]

/-- Witness for `start_stop_idempotent` on the concrete running state:
stopping it leaves no running task. -/
theorem start_stop_idempotent_witness :
    exRunning.TaskInv exTasks ∧
    (LeakyBucketAlgorithm.stop exRunning exTasks).2.running = [] :=
  ⟨rfl, (start_stop_idempotent.2.2.2 exRunning exTasks rfl).2.1⟩

/-! ## C7: status snapshot -/

/-- What a status snapshot must contain for state `s`: the configuration
echo, the queue length, utilization = length / capacity lying in [0, 1],
the three counters, the guarded acceptance rate and the guarded average
residency time. -/
def StatusSpec (s : LeakyBucketAlgorithm) (st : LeakyBucketAlgorithm.StatusReport) : Prop :=
  st.bucket_size = s.bucket_size ∧
  st.leak_rate = s.leak_rate ∧
  st.processing_interval = s.processing_interval ∧
  st.current_size = s.bucket.length ∧
  st.utilization = (s.bucket.length : ℚ) / (s.bucket_size : ℚ) ∧
  0 ≤ st.utilization ∧ st.utilization ≤ 1 ∧
  st.total_requests = s.total_requests ∧
  st.accepted_requests = s.accepted_requests ∧
  st.rejected_requests = s.rejected_requests ∧
  (0 < s.total_requests →
    st.acceptance_rate = (s.accepted_requests : ℚ) / (s.total_requests : ℚ)) ∧
  (s.total_requests = 0 → st.acceptance_rate = 0) ∧
  (s.processing_times = [] → st.avg_processing_time = 0) ∧
  (s.processing_times ≠ [] →
    st.avg_processing_time = s.processing_times.sum / (s.processing_times.length : ℚ))

/-- Claim C7: on every state with positive capacity and a queue no longer
than the capacity, `get_status` succeeds and its snapshot satisfies
`StatusSpec`. -/
theorem get_status_correct (s : LeakyBucketAlgorithm)
    (hcap : 0 < s.bucket_size) (hlen : (s.bucket.length : ℤ) ≤ s.bucket_size) :
    ∃ st, s.get_status = .ok st ∧ StatusSpec s st := by
  have hne : ¬ s.bucket_size = 0 := by omega
  unfold LeakyBucketAlgorithm.get_status
  rw [if_neg hne]
  refine ⟨_, rfl, ?_⟩
  have hcapq : (0 : ℚ) < (s.bucket_size : ℚ) := by exact_mod_cast hcap
  have hlenq : (s.bucket.length : ℚ) ≤ (s.bucket_size : ℚ) := by exact_mod_cast hlen
  refine ⟨rfl, rfl, rfl, rfl, rfl, ?_, ?_, rfl, rfl, rfl, ?_, ?_, ?_, ?_⟩
  · exact div_nonneg (Nat.cast_nonneg _) (le_of_lt hcapq)
  · exact div_le_one_of_le₀ hlenq (le_of_lt hcapq)
  · intro h
    simp only [if_pos h]
  · intro h
    simp [h]
  · intro h
    simp only [if_pos h]
  · intro h
    simp only [if_neg h]

/-- Witness for `get_status_correct` on the concrete state `exState`. -/
theorem get_status_correct_witness :
    (0 : ℤ) < exState.bucket_size ∧
    (exState.bucket.length : ℤ) ≤ exState.bucket_size ∧
    ∃ st, exState.get_status = .ok st ∧ StatusSpec exState st :=
  ⟨by decide, by decide, get_status_correct exState (by decide) (by decide)⟩

/-! ## C8: counter discipline -/

/-- Claim C8: every `allow_request` call bumps the total counter by one
and exactly one of accepted/rejected by one; all counters are
non-decreasing, and the identity total = accepted + rejected is preserved
by the call. -/
theorem metrics_counters (s : LeakyBucketAlgorithm) (t : ℚ) (req : RateLimitRequest) :
    (s.allow_request t req).1.total_requests = s.total_requests + 1 ∧
    ((s.allow_request t req).2.is_allowed = true →
      (s.allow_request t req).1.accepted_requests = s.accepted_requests + 1 ∧
      (s.allow_request t req).1.rejected_requests = s.rejected_requests) ∧
    ((s.allow_request t req).2.is_allowed = false →
      (s.allow_request t req).1.rejected_requests = s.rejected_requests + 1 ∧
      (s.allow_request t req).1.accepted_requests = s.accepted_requests) ∧
    s.total_requests ≤ (s.allow_request t req).1.total_requests ∧
    s.accepted_requests ≤ (s.allow_request t req).1.accepted_requests ∧
    s.rejected_requests ≤ (s.allow_request t req).1.rejected_requests ∧
    (s.total_requests = s.accepted_requests + s.rejected_requests →
      (s.allow_request t req).1.total_requests =
        (s.allow_request t req).1.accepted_requests +
          (s.allow_request t req).1.rejected_requests) := by
  by_cases h : (s.bucket.length : ℤ) < s.bucket_size
  · rw [s.allow_request_admit_eq t req h]
    refine ⟨rfl, fun _ => ⟨rfl, rfl⟩, fun hc => by simp at hc, ?_, ?_, ?_, ?_⟩ <;> simp
    omega
  · rw [s.allow_request_reject_eq t req h]
    refine ⟨rfl, fun hc => by simp at hc, fun _ => ⟨rfl, rfl⟩, ?_, ?_, ?_, ?_⟩ <;> simp
    omega

/-- Witness for `metrics_counters` on the concrete state `exState`, where
total = accepted + rejected holds before the call and hence after it. -/
theorem metrics_counters_witness :
    exState.total_requests = exState.accepted_requests + exState.rejected_requests ∧
    (exState.allow_request 10 exReq).1.total_requests =
      (exState.allow_request 10 exReq).1.accepted_requests +
        (exState.allow_request 10 exReq).1.rejected_requests :=
  ⟨by decide, (metrics_counters exState 10 exReq).2.2.2.2.2.2 (by decide)⟩

/-! ## C9: totality of the two operations -/

/-- Claim C9: `allow_request` always returns a verdict with populated
headers — the three rate-limit headers when admitted, those plus
Retry-After when rejected — with the retry_after field present exactly on
rejection; and `get_status` succeeds on every state whose capacity is not
zero (in particular on every state of the spec's positive-capacity
configurations). -/
theorem allow_request_total (s : LeakyBucketAlgorithm) (t : ℚ) (req : RateLimitRequest) :
    (s.allow_request t req).2.headers ≠ [] ∧
    ((s.allow_request t req).2.is_allowed = true →
      (s.allow_request t req).2.headers.map Prod.fst =
        ["X-RateLimit-Limit", "X-RateLimit-Remaining", "X-RateLimit-Reset"] ∧
      (s.allow_request t req).2.retry_after = none) ∧
    ((s.allow_request t req).2.is_allowed = false →
      (s.allow_request t req).2.headers.map Prod.fst =
        ["X-RateLimit-Limit", "X-RateLimit-Remaining", "X-RateLimit-Reset",
          "Retry-After"] ∧
      ∃ ra, (s.allow_request t req).2.retry_after = some ra) ∧
    ((s.allow_request t req).2.retry_after = none ↔
      (s.allow_request t req).2.is_allowed = true) ∧
    (s.bucket_size ≠ 0 → (s.get_status).isOk = true) := by
  have hstatus : s.bucket_size ≠ 0 → (s.get_status).isOk = true := by
    intro hne
    simp [LeakyBucketAlgorithm.get_status, hne, Except.isOk, Except.toBool]
  by_cases h : (s.bucket.length : ℤ) < s.bucket_size
  · rw [s.allow_request_admit_eq t req h]
    exact ⟨by simp, fun _ => ⟨rfl, rfl⟩, fun hc => by simp at hc, by simp, hstatus⟩
  · rw [s.allow_request_reject_eq t req h]
    exact ⟨by simp, fun hc => by simp at hc, fun _ => ⟨rfl, ⟨_, rfl⟩⟩, by simp, hstatus⟩

/-- Witness for `allow_request_total` on the concrete state `exState`. -/
theorem allow_request_total_witness :
    exState.bucket_size ≠ 0 ∧ (exState.get_status).isOk = true ∧
    (exState.allow_request 10 exReq).2.headers ≠ [] :=
  have h := allow_request_total exState 10 exReq
  ⟨by decide, h.2.2.2.2 (by decide), h.1⟩

/-! ## C10: batch admission counts -/

theorem processAll_length (s : LeakyBucketAlgorithm) (now : ℚ)
    (reqs : List RateLimitRequest) :
    (LeakyBucketAlgorithm.processAll s now reqs).2.length = reqs.length := by
  induction reqs generalizing s with
  | nil => rfl
  | cons r rs ih => simp [LeakyBucketAlgorithm.processAll, ih]

theorem filter_allowed_split (l : List RateLimitResponse) :
    (l.filter fun r => !r.is_allowed).length =
      l.length - (l.filter fun r => r.is_allowed).length := by
  induction l with
  | nil => rfl
  | cons r rs ih =>
    have hle := List.length_filter_le (fun r : RateLimitResponse => r.is_allowed) rs
    cases h : r.is_allowed
    · simp [List.filter_cons, h, ih]
      omega
    · simp [List.filter_cons, h, ih]

theorem processAll_cons (s : LeakyBucketAlgorithm) (now : ℚ) (r : RateLimitRequest)
    (rs : List RateLimitRequest) :
    LeakyBucketAlgorithm.processAll s now (r :: rs) =
      ((LeakyBucketAlgorithm.processAll (s.allow_request now r).1 now rs).1,
       (s.allow_request now r).2 ::
         (LeakyBucketAlgorithm.processAll (s.allow_request now r).1 now rs).2) := rfl

/-- Admissions granted to a batch: starting from any state satisfying the
capacity invariant, exactly `min` of the batch size and the remaining free
slots are admitted. -/
theorem processAll_allowed_count (now : ℚ) (reqs : List RateLimitRequest) :
    ∀ s : LeakyBucketAlgorithm, 0 ≤ s.bucket_size →
      (s.bucket.length : ℤ) ≤ s.bucket_size →
      ((LeakyBucketAlgorithm.processAll s now reqs).2.filter
          fun r => r.is_allowed).length =
        min reqs.length (s.bucket_size.toNat - s.bucket.length) := by
  induction reqs with
  | nil =>
    intro s h0 h1
    simp [LeakyBucketAlgorithm.processAll]
  | cons r rs ih =>
    intro s h0 h1
    rw [processAll_cons]
    by_cases h : (s.bucket.length : ℤ) < s.bucket_size
    · have hlen : s.bucket.length < s.bucket_size.toNat := by omega
      rw [s.allow_request_admit_eq now r h]
      have hrec := ih { s with
        total_requests := s.total_requests + 1
        bucket := s.bucket ++ [r]
        accepted_requests := s.accepted_requests + 1 } (by simpa using h0)
        (by simp; omega)
      simp only [List.length_append, List.length_singleton] at hrec
      simp [List.filter_cons, hrec]
      omega
    · rw [s.allow_request_reject_eq now r h]
      have hrec := ih { s with
        total_requests := s.total_requests + 1
        rejected_requests := s.rejected_requests + 1 } (by simpa using h0)
        (by simpa using h1)
      simp [List.filter_cons, hrec]
      omega

/-- Claim C10: submitting N requests to a freshly constructed engine with
positive capacity less than N, with no drain event in between, yields a
verdict for every request, exactly `capacity` admissions and exactly
N - capacity rejections. Admissions are serialized by the engine's single
lock, so every concurrent interleaving linearizes to some request order,
and the count holds for every order because `reqs` is universally
quantified. -/
theorem concurrent_admission_count (cap : ℤ) (rate t0 now : ℚ)
    (reqs : List RateLimitRequest) (s0 : LeakyBucketAlgorithm)
    (hinit : LeakyBucketAlgorithm.init cap rate t0 = .ok s0)
    (hcap : 0 < cap) (hN : cap < (reqs.length : ℤ)) :
    (LeakyBucketAlgorithm.processAll s0 now reqs).2.length = reqs.length ∧
    ((LeakyBucketAlgorithm.processAll s0 now reqs).2.filter
        fun r => r.is_allowed).length = cap.toNat ∧
    ((LeakyBucketAlgorithm.processAll s0 now reqs).2.filter
        fun r => !r.is_allowed).length = reqs.length - cap.toNat := by
  unfold LeakyBucketAlgorithm.init at hinit
  split at hinit
  · cases hinit
  · split at hinit
    · cases hinit
    · cases hinit
      have hlenr := processAll_length
        { bucket_size := cap, leak_rate := rate, processing_interval := 1 / rate
          bucket := [], total_requests := 0, accepted_requests := 0
          rejected_requests := 0, last_leak_time := t0, processing_times := []
          leak_task := none } now reqs
      have hcount := processAll_allowed_count now reqs
        { bucket_size := cap, leak_rate := rate, processing_interval := 1 / rate
          bucket := [], total_requests := 0, accepted_requests := 0
          rejected_requests := 0, last_leak_time := t0, processing_times := []
          leak_task := none } (by simp; omega) (by simp; omega)
      have hsplit := filter_allowed_split
        (LeakyBucketAlgorithm.processAll
          { bucket_size := cap, leak_rate := rate, processing_interval := 1 / rate
            bucket := [], total_requests := 0, accepted_requests := 0
            rejected_requests := 0, last_leak_time := t0, processing_times := []
            leak_task := none } now reqs).2
      simp only [List.length_nil, Nat.sub_zero] at hcount
      refine ⟨hlenr, ?_, ?_⟩ <;> omega

/-- The engine produced by `init 2 1 0`: capacity 2, leak rate 1. -/
def exInit2 : LeakyBucketAlgorithm :=
  { bucket_size := 2, leak_rate := 1, processing_interval := 1 / 1
    bucket := [], total_requests := 0, accepted_requests := 0
    rejected_requests := 0, last_leak_time := 0, processing_times := []
    leak_task := none }

/-- Witness for `concurrent_admission_count`: three requests against a
fresh capacity-2 engine yield exactly 2 admissions and 1 rejection. -/
theorem concurrent_admission_count_witness :
    LeakyBucketAlgorithm.init 2 1 0 = .ok exInit2 ∧
    (0 : ℤ) < 2 ∧
    (2 : ℤ) < (([exReq, exReq, exReq] : List RateLimitRequest).length : ℤ) ∧
    ((LeakyBucketAlgorithm.processAll exInit2 10 [exReq, exReq, exReq]).2.filter
        fun r => r.is_allowed).length = 2 ∧
    ((LeakyBucketAlgorithm.processAll exInit2 10 [exReq, exReq, exReq]).2.filter
        fun r => !r.is_allowed).length = 1 :=
  have h := concurrent_admission_count 2 1 0 10 [exReq, exReq, exReq] exInit2
    (by rfl) (by decide) (by decide)
  ⟨by rfl, by decide, by decide, h.2.1, h.2.2⟩
